import Mathlib

/-!
Verification of the LISC term co-occurrence collection and scoring engine.
The repository ships only the tutorial callers of the library (lisc.scrape,
lisc.count, lisc.objects.base); the engine itself is modelled from the
specification and checked against the properties the tutorials rely on.
-/

namespace LISC

/-- Modelled from the spec: ConfigError signals a malformed term
specification (lisc query-construction code is absent from src; only
tutorial callers are present). -/
inductive ConfigError where
  | mk
  deriving DecidableEq

/-- Modelled from the spec: a Term bundles the synonym list with its
positionally associated inclusion and exclusion word lists. -/
structure Term where
  synonyms : List String
  inclusions : List String
  exclusions : List String
  deriving DecidableEq

/-- Modelled from the spec: each search word is wrapped in double quotes. -/
def quoteWord (s : String) : String := "\"" ++ s ++ "\""

/-- Modelled from the spec: word lists are joined with the OR operator. -/
def orJoin : List String → String
  | [] => ""
  | [s] => quoteWord s
  | s :: rest => quoteWord s ++ "OR" ++ orJoin rest

/-- Modelled from the spec: a parenthesized OR-group of quoted words. -/
def orGroup (ss : List String) : String := "(" ++ orJoin ss ++ ")"

/-- Modelled from the spec: the clause for one term - the synonym group,
then an AND-group of inclusions when present, then a NOT-group of
exclusions when present. -/
def mkClause (synonyms inclusions exclusions : List String) : String :=
  orGroup synonyms
    ++ (if inclusions.isEmpty then "" else "AND" ++ orGroup inclusions)
    ++ (if exclusions.isEmpty then "" else "NOT" ++ orGroup exclusions)

/-- Modelled from the spec: build_query fails with ConfigError on an empty
synonym list and otherwise produces the term clause. -/
def build_query (t : Term) : Except ConfigError String :=
  if t.synonyms.isEmpty then .error .mk
  else .ok (mkClause t.synonyms t.inclusions t.exclusions)

/-- Merging lemma for the leading parenthesis and quote of a group. -/
theorem fold_open (x : String) : "(" ++ ("\"" ++ x) = "(\"" ++ x := by
  rw [← String.append_assoc]; rfl

/-- Merging lemma for the OR separator between two quoted words. -/
theorem fold_or (x : String) : "\"" ++ ("OR" ++ ("\"" ++ x)) = "\"OR\"" ++ x := by
  simp only [← String.append_assoc]; rfl

/-- Merging lemma for the boundary between the synonym group and the
AND-group. -/
theorem fold_and (x : String) :
    "\"" ++ (")" ++ ("AND" ++ ("(\"" ++ x))) = "\")AND(\"" ++ x := by
  simp only [← String.append_assoc]; rfl

/-- Merging lemma for the boundary between a closed group and the
NOT-group. -/
theorem fold_not (x : String) :
    "\"" ++ (")" ++ ("NOT" ++ ("(\"" ++ x))) = "\")NOT(\"" ++ x := by
  simp only [← String.append_assoc]; rfl

/-- Merging lemma for the trailing quote and parenthesis of a group. -/
theorem fold_close : ("\"" : String) ++ ")" = "\")" := rfl

/-- C1: build_query on synonyms [s1, s2], inclusions [i1], exclusions [e1]
produces exactly ("s1"OR"s2")AND("i1")NOT("e1"); dropping inclusions or
exclusions drops exactly the corresponding segment, and with exclusions
only, the NOT group sits outside the closed synonym parenthesis. -/
theorem build_query_spec (s1 s2 i1 e1 : String) :
    build_query ⟨[s1, s2], [i1], [e1]⟩
        = .ok ("(\"" ++ s1 ++ "\"OR\"" ++ s2 ++ "\")AND(\"" ++ i1 ++ "\")NOT(\"" ++ e1 ++ "\")")
      ∧ build_query ⟨[s1, s2], [], [e1]⟩
        = .ok ("(\"" ++ s1 ++ "\"OR\"" ++ s2 ++ "\")NOT(\"" ++ e1 ++ "\")")
      ∧ build_query ⟨[s1, s2], [i1], []⟩
        = .ok ("(\"" ++ s1 ++ "\"OR\"" ++ s2 ++ "\")AND(\"" ++ i1 ++ "\")")
      ∧ build_query ⟨[s1, s2], [], []⟩
        = .ok ("(\"" ++ s1 ++ "\"OR\"" ++ s2 ++ "\")") := by
  refine ⟨?_, ?_, ?_, ?_⟩ <;>
  · simp [build_query, mkClause, orGroup, orJoin, quoteWord]
    simp only [String.append_assoc]
    simp only [fold_open, fold_or, fold_and, fold_not, fold_close]

/-- Modelled from the spec: TransportError signals one failed lookup of
the external transport collaborator (scrape_counts itself is absent from
src; only its tutorial callers are present). -/
inductive TransportError where
  | fail
  deriving DecidableEq

/-- Modelled from the spec: the clause of a validated term, as used by the
collection engine when it builds lookup queries. -/
def clause (t : Term) : String := mkClause t.synonyms t.inclusions t.exclusions

/-- Modelled from the spec: a pairwise lookup uses the AND-combination of
the two term clauses. -/
def pairQuery (t u : Term) : String := clause t ++ "AND" ++ clause u

/-- Modelled from the spec: the unordered pairs (i, j) with i ≤ j of a
single term list, in row-major order of the upper triangle. -/
def upperPairs : List Term → List (Term × Term)
  | [] => []
  | t :: rest => ((t, t) :: rest.map (fun u => (t, u))) ++ upperPairs rest

/-- Modelled from the spec: all ordered pairs across two term lists, in
row-major order. -/
def crossPairs : List Term → List Term → List (Term × Term)
  | [], _ => []
  | t :: rest, bs => bs.map (fun u => (t, u)) ++ crossPairs rest bs

/-- Modelled from the spec: the query sequence of a single-list sweep is
the marginal lookups in list order, then the pairwise lookups for the
upper triangle in row-major order. -/
def collectQueriesOne (ts : List Term) : List String :=
  ts.map clause ++ (upperPairs ts).map (fun p => pairQuery p.1 p.2)

/-- Modelled from the spec: the query sequence of a two-list sweep is the
A marginals, then the B marginals, then all pairwise lookups in row-major
order. -/
def collectQueriesTwo (la lb : List Term) : List String :=
  la.map clause ++ lb.map clause ++ (crossPairs la lb).map (fun p => pairQuery p.1 p.2)

/-- Modelled from the spec: the request log of a sweep records the queries
issued, in order, and the running request count. -/
structure RequestLog where
  queries : List String
  n_requests : Nat
  deriving DecidableEq

/-- Modelled from the spec: the requester wraps one external lookup - it
records the query, increments the request count, and returns the
transport result unchanged. -/
def lookup (transport : String → Except TransportError Nat) (log : RequestLog) (q : String) :
    RequestLog × Except TransportError Nat :=
  (⟨log.queries ++ [q], log.n_requests + 1⟩, transport q)

/-- Modelled from the spec: a sweep issues the lookups of its query
sequence strictly one after the other, threading the request log. -/
def runSweep (transport : String → Except TransportError Nat) :
    List String → RequestLog → RequestLog × List (Except TransportError Nat)
  | [], log => (log, [])
  | q :: qs, log =>
    let step := lookup transport log q
    let rest := runSweep transport qs step.1
    (rest.1, step.2 :: rest.2)

/-- The sweep appends exactly its query sequence to the log, in order. -/
theorem runSweep_queries (transport : String → Except TransportError Nat)
    (qs : List String) (log : RequestLog) :
    (runSweep transport qs log).1.queries = log.queries ++ qs := by
  induction qs generalizing log with
  | nil => simp [runSweep]
  | cons q rest ih => simp [runSweep, lookup, ih]

/-- The sweep adds exactly one request per query to the running count. -/
theorem runSweep_count (transport : String → Except TransportError Nat)
    (qs : List String) (log : RequestLog) :
    (runSweep transport qs log).1.n_requests = log.n_requests + qs.length := by
  induction qs generalizing log with
  | nil => simp [runSweep]
  | cons q rest ih => simp [runSweep, lookup, ih]; omega

/-- The sweep returns the transport result of each issued query, in
order. -/
theorem runSweep_results (transport : String → Except TransportError Nat)
    (qs : List String) (log : RequestLog) :
    (runSweep transport qs log).2 = qs.map transport := by
  induction qs generalizing log with
  | nil => simp [runSweep]
  | cons q rest ih => simp [runSweep, lookup, ih]

/-- The upper triangle of an n-term list holds n(n+1)/2 pairs. -/
theorem upperPairs_length (ts : List Term) :
    2 * (upperPairs ts).length = ts.length * (ts.length + 1) := by
  induction ts with
  | nil => rfl
  | cons t rest ih =>
    simp only [upperPairs, List.length_append, List.length_cons, List.length_map]
    have h2 : (rest.length + 1) * (rest.length + 1 + 1)
        = rest.length * (rest.length + 1) + 2 * (rest.length + 1) := by ring
    rw [h2, ← ih]; ring

/-- The cross product of two term lists holds na * nb pairs. -/
theorem crossPairs_length (la lb : List Term) :
    (crossPairs la lb).length = la.length * lb.length := by
  induction la with
  | nil => simp [crossPairs]
  | cons t rest ih =>
    simp only [crossPairs, List.length_append, List.length_map, List.length_cons]
    rw [ih]; ring

/-- C2: a single-list sweep over n terms issues exactly n + n(n+1)/2
lookups, and a two-list sweep over lists of sizes na and nb issues exactly
na + nb + na*nb lookups, as counted by the sweep's request log. -/
theorem collect_request_counts (transport : String → Except TransportError Nat)
    (ts la lb : List Term) :
    (runSweep transport (collectQueriesOne ts) ⟨[], 0⟩).1.n_requests
        = ts.length + ts.length * (ts.length + 1) / 2
      ∧ (runSweep transport (collectQueriesTwo la lb) ⟨[], 0⟩).1.n_requests
        = la.length + lb.length + la.length * lb.length := by
  constructor
  · rw [runSweep_count]
    simp only [collectQueriesOne, List.length_append, List.length_map]
    have h := upperPairs_length ts
    set m := ts.length * (ts.length + 1) with hm
    omega
  · rw [runSweep_count]
    simp only [collectQueriesTwo, List.length_append, List.length_map, crossPairs_length]
    ring

/-- C9: the lookups of a sweep are issued in a fixed deterministic order -
marginal lookups first, in list order, then pairwise lookups in row-major
order - and the issued query sequence does not depend on the transport's
responses, so two sweeps over the same term lists issue identical query
sequences. -/
theorem lookup_order_deterministic
    (tr1 tr2 : String → Except TransportError Nat) (ts la lb : List Term) :
    ((runSweep tr1 (collectQueriesOne ts) ⟨[], 0⟩).1.queries
        = ts.map clause ++ (upperPairs ts).map (fun p => pairQuery p.1 p.2))
      ∧ ((runSweep tr1 (collectQueriesTwo la lb) ⟨[], 0⟩).1.queries
        = la.map clause ++ lb.map clause
            ++ (crossPairs la lb).map (fun p => pairQuery p.1 p.2))
      ∧ (runSweep tr1 (collectQueriesOne ts) ⟨[], 0⟩).1.queries
        = (runSweep tr2 (collectQueriesOne ts) ⟨[], 0⟩).1.queries
      ∧ (runSweep tr1 (collectQueriesTwo la lb) ⟨[], 0⟩).1.queries
        = (runSweep tr2 (collectQueriesTwo la lb) ⟨[], 0⟩).1.queries := by
  refine ⟨?_, ?_, ?_, ?_⟩ <;>
    simp [runSweep_queries, collectQueriesOne, collectQueriesTwo]

/-- Modelled from the spec: a CountsMatrix holds the co-occurrence matrix
and the per-term marginal totals; a missing entry (failed lookup) is
flagged as none rather than recorded as 0. -/
structure CountsMatrix where
  cooccurrence : List (List (Option Nat))
  marginal_a : List (Option Nat)
  marginal_b : List (Option Nat)
  deriving DecidableEq

/-- Reads one co-occurrence entry; out-of-range positions read as none. -/
def CountsMatrix.cooc (m : CountsMatrix) (i j : Nat) : Option Nat :=
  (m.cooccurrence.getD i []).getD j none

/-- Reads one A marginal; out-of-range positions read as none. -/
def CountsMatrix.margA (m : CountsMatrix) (i : Nat) : Option Nat :=
  m.marginal_a.getD i none

/-- Reads one B marginal; out-of-range positions read as none. -/
def CountsMatrix.margB (m : CountsMatrix) (j : Nat) : Option Nat :=
  m.marginal_b.getD j none

/-- Modelled from the spec: a successful lookup fills the entry and a
TransportError leaves it flagged missing. -/
def lookupOpt (transport : String → Except TransportError Nat) (q : String) : Option Nat :=
  match transport q with
  | .ok n => some n
  | .error _ => none

/-- Placeholder term used only as an out-of-range list default. -/
def defaultTerm : Term := ⟨[], [], []⟩

/-- Modelled from the spec: in single-list mode the entry (i, j) comes
from the one lookup for the unordered pair; the (j, i) position mirrors
the same lookup. -/
def coocEntryOne (transport : String → Except TransportError Nat)
    (ts : List Term) (i j : Nat) : Option Nat :=
  if i ≤ j then
    lookupOpt transport (pairQuery (ts.getD i defaultTerm) (ts.getD j defaultTerm))
  else
    lookupOpt transport (pairQuery (ts.getD j defaultTerm) (ts.getD i defaultTerm))

/-- Modelled from the spec: the assembled matrix of a single-list sweep;
marginal_b equals marginal_a and each unordered pair is looked up once
and mirrored. -/
def assembleOne (transport : String → Except TransportError Nat)
    (ts : List Term) : CountsMatrix :=
  { cooccurrence := (List.range ts.length).map (fun i =>
      (List.range ts.length).map (fun j => coocEntryOne transport ts i j))
    marginal_a := ts.map (fun t => lookupOpt transport (clause t))
    marginal_b := ts.map (fun t => lookupOpt transport (clause t)) }

/-- Modelled from the spec: the assembled matrix of a two-list sweep, one
pairwise lookup per ordered pair across the two lists. -/
def assembleTwo (transport : String → Except TransportError Nat)
    (la lb : List Term) : CountsMatrix :=
  { cooccurrence := la.map (fun t => lb.map (fun u => lookupOpt transport (pairQuery t u)))
    marginal_a := la.map (fun t => lookupOpt transport (clause t))
    marginal_b := lb.map (fun u => lookupOpt transport (clause u)) }

/-- Reading past the end of a list yields the default. -/
theorem getD_ge {α : Type} (l : List α) (d : α) (i : Nat) (h : l.length ≤ i) :
    l.getD i d = d :=
  List.getD_eq_default l d h

/-- Reading a mapped list in range applies the function to the source. -/
theorem getD_map_lt {α β : Type} (l : List α) (f : α → β) (d : β) (d0 : α)
    (i : Nat) (h : i < l.length) : (l.map f).getD i d = f (l.getD i d0) := by
  have h1 : i < (l.map f).length := by simpa using h
  rw [List.getD_eq_getElem _ _ h1, List.getD_eq_getElem _ _ h]
  simp

/-- Reading a mapped range in range applies the function to the index. -/
theorem getD_range_map {β : Type} (n : Nat) (f : Nat → β) (d : β)
    (i : Nat) (h : i < n) : ((List.range n).map f).getD i d = f i := by
  have h1 : i < ((List.range n).map f).length := by simpa using h
  rw [List.getD_eq_getElem _ _ h1]
  simp

/-- Reading a list in range yields a member. -/
theorem getD_mem_of_lt {α : Type} (l : List α) (d : α) (i : Nat)
    (h : i < l.length) : l.getD i d ∈ l := by
  rw [List.getD_eq_getElem _ _ h]
  exact List.getElem_mem h

/-- A filled optional lookup is exactly a successful transport call. -/
theorem lookupOpt_eq_some (transport : String → Except TransportError Nat)
    (q : String) (c : Nat) : lookupOpt transport q = some c ↔ transport q = .ok c := by
  unfold lookupOpt
  cases h : transport q <;> simp

/-- A missing optional lookup is exactly a failed transport call. -/
theorem lookupOpt_eq_none (transport : String → Except TransportError Nat)
    (q : String) : lookupOpt transport q = none ↔ transport q = .error .fail := by
  unfold lookupOpt
  cases h : transport q with
  | ok v => simp
  | error e => cases e; simp

/-- In-range co-occurrence entries of a single-list matrix are the pair
lookups. -/
theorem assembleOne_cooc (transport : String → Except TransportError Nat)
    (ts : List Term) (i j : Nat) (hi : i < ts.length) (hj : j < ts.length) :
    (assembleOne transport ts).cooc i j = coocEntryOne transport ts i j := by
  simp only [CountsMatrix.cooc, assembleOne]
  rw [getD_range_map _ _ _ i hi, getD_range_map _ _ _ j hj]

/-- In-range A marginals of a single-list matrix are the clause lookups. -/
theorem assembleOne_margA (transport : String → Except TransportError Nat)
    (ts : List Term) (i : Nat) (hi : i < ts.length) :
    (assembleOne transport ts).margA i
      = lookupOpt transport (clause (ts.getD i defaultTerm)) := by
  simp only [CountsMatrix.margA, assembleOne]
  rw [getD_map_lt ts _ none defaultTerm i hi]

/-- In-range B marginals of a single-list matrix are the clause lookups. -/
theorem assembleOne_margB (transport : String → Except TransportError Nat)
    (ts : List Term) (j : Nat) (hj : j < ts.length) :
    (assembleOne transport ts).margB j
      = lookupOpt transport (clause (ts.getD j defaultTerm)) := by
  simp only [CountsMatrix.margB, assembleOne]
  rw [getD_map_lt ts _ none defaultTerm j hj]

/-- In-range co-occurrence entries of a two-list matrix are the pair
lookups. -/
theorem assembleTwo_cooc (transport : String → Except TransportError Nat)
    (la lb : List Term) (i j : Nat) (hi : i < la.length) (hj : j < lb.length) :
    (assembleTwo transport la lb).cooc i j
      = lookupOpt transport (pairQuery (la.getD i defaultTerm) (lb.getD j defaultTerm)) := by
  simp only [CountsMatrix.cooc, assembleTwo]
  rw [getD_map_lt la _ [] defaultTerm i hi, getD_map_lt lb _ none defaultTerm j hj]

/-- In-range A marginals of a two-list matrix are the clause lookups. -/
theorem assembleTwo_margA (transport : String → Except TransportError Nat)
    (la lb : List Term) (i : Nat) (hi : i < la.length) :
    (assembleTwo transport la lb).margA i
      = lookupOpt transport (clause (la.getD i defaultTerm)) := by
  simp only [CountsMatrix.margA, assembleTwo]
  rw [getD_map_lt la _ none defaultTerm i hi]

/-- In-range B marginals of a two-list matrix are the clause lookups. -/
theorem assembleTwo_margB (transport : String → Except TransportError Nat)
    (la lb : List Term) (j : Nat) (hj : j < lb.length) :
    (assembleTwo transport la lb).margB j
      = lookupOpt transport (clause (lb.getD j defaultTerm)) := by
  simp only [CountsMatrix.margB, assembleTwo]
  rw [getD_map_lt lb _ none defaultTerm j hj]

/-- C5: if the transport's counts are consistent - a pairwise count never
exceeds either marginal count - then every filled entry of an assembled
matrix, in either mode, satisfies
cooccurrence[i][j] ≤ min(marginal_a[i], marginal_b[j]); the engine never
fabricates a violation from correct transport inputs. -/
theorem cooccurrence_invariant_preserved
    (transport : String → Except TransportError Nat) (ts la lb : List Term)
    (hone : ∀ t ∈ ts, ∀ u ∈ ts, ∀ c a b : Nat,
      transport (pairQuery t u) = .ok c → transport (clause t) = .ok a →
      transport (clause u) = .ok b → c ≤ min a b)
    (htwo : ∀ t ∈ la, ∀ u ∈ lb, ∀ c a b : Nat,
      transport (pairQuery t u) = .ok c → transport (clause t) = .ok a →
      transport (clause u) = .ok b → c ≤ min a b) :
    (∀ i j c a b, i < ts.length → j < ts.length →
      (assembleOne transport ts).cooc i j = some c →
      (assembleOne transport ts).margA i = some a →
      (assembleOne transport ts).margB j = some b → c ≤ min a b)
    ∧ (∀ i j c a b, i < la.length → j < lb.length →
      (assembleTwo transport la lb).cooc i j = some c →
      (assembleTwo transport la lb).margA i = some a →
      (assembleTwo transport la lb).margB j = some b → c ≤ min a b) := by
  constructor
  · intro i j c a b hi hj hc ha hb
    rw [assembleOne_cooc _ _ _ _ hi hj] at hc
    rw [assembleOne_margA _ _ _ hi] at ha
    rw [assembleOne_margB _ _ _ hj] at hb
    rw [lookupOpt_eq_some] at ha hb
    unfold coocEntryOne at hc
    by_cases hij : i ≤ j
    · rw [if_pos hij, lookupOpt_eq_some] at hc
      exact hone _ (getD_mem_of_lt ts defaultTerm i hi)
        _ (getD_mem_of_lt ts defaultTerm j hj) c a b hc ha hb
    · rw [if_neg hij, lookupOpt_eq_some] at hc
      have h := hone _ (getD_mem_of_lt ts defaultTerm j hj)
        _ (getD_mem_of_lt ts defaultTerm i hi) c b a hc hb ha
      omega
  · intro i j c a b hi hj hc ha hb
    rw [assembleTwo_cooc _ _ _ _ _ hi hj, lookupOpt_eq_some] at hc
    rw [assembleTwo_margA _ _ _ _ hi, lookupOpt_eq_some] at ha
    rw [assembleTwo_margB _ _ _ _ hj, lookupOpt_eq_some] at hb
    exact htwo _ (getD_mem_of_lt la defaultTerm i hi)
      _ (getD_mem_of_lt lb defaultTerm j hj) c a b hc ha hb

/-- Constant transport that answers every query with a count of 0; its
counts are trivially consistent. -/
def zeroTransport : String → Except TransportError Nat := fun _ => .ok 0

/-- Concrete term used in concrete checks. -/
def wTermA : Term := ⟨["brain"], [], []⟩

/-- Concrete term used in concrete checks. -/
def wTermB : Term := ⟨["cognition"], [], []⟩

/-- Concrete term list used in concrete checks. -/
def wTerms : List Term := [wTermA, wTermB]

/-- Consistency of the constant zero transport. -/
theorem zeroTransport_consistent (l1 l2 : List Term) :
    ∀ t ∈ l1, ∀ u ∈ l2, ∀ c a b : Nat,
      zeroTransport (pairQuery t u) = .ok c → zeroTransport (clause t) = .ok a →
      zeroTransport (clause u) = .ok b → c ≤ min a b := by
  intro t _ u _ c a b hc _ _
  simp only [zeroTransport, Except.ok.injEq] at hc
  omega

/-- Witness for C5 at a concrete transport and term list. -/
theorem cooccurrence_invariant_preserved_witness :
    (∀ i j c a b, i < wTerms.length → j < wTerms.length →
      (assembleOne zeroTransport wTerms).cooc i j = some c →
      (assembleOne zeroTransport wTerms).margA i = some a →
      (assembleOne zeroTransport wTerms).margB j = some b → c ≤ min a b)
    ∧ (∀ i j c a b, i < wTerms.length → j < wTerms.length →
      (assembleTwo zeroTransport wTerms wTerms).cooc i j = some c →
      (assembleTwo zeroTransport wTerms wTerms).margA i = some a →
      (assembleTwo zeroTransport wTerms wTerms).margB j = some b → c ≤ min a b) :=
  cooccurrence_invariant_preserved zeroTransport wTerms wTerms wTerms
    (zeroTransport_consistent wTerms wTerms) (zeroTransport_consistent wTerms wTerms)

/-- C6: a single-list sweep yields marginal_b equal to marginal_a and a
symmetric co-occurrence matrix whose mirrored entry reuses the single
lookup of the unordered pair; whenever the transport answers the
self-pair query with the term's own marginal count (as a count of papers
matching both of two identical queries always does), every diagonal entry
equals the marginal. -/
theorem single_list_symmetry (transport : String → Except TransportError Nat)
    (ts : List Term)
    (hdiag : ∀ t ∈ ts, transport (pairQuery t t) = transport (clause t)) :
    (assembleOne transport ts).marginal_b = (assembleOne transport ts).marginal_a
      ∧ (∀ i j, i < ts.length → j < ts.length →
          (assembleOne transport ts).cooc i j = (assembleOne transport ts).cooc j i)
      ∧ (∀ i, i < ts.length →
          (assembleOne transport ts).cooc i i = (assembleOne transport ts).margA i) := by
  refine ⟨rfl, ?_, ?_⟩
  · intro i j hi hj
    rw [assembleOne_cooc _ _ _ _ hi hj, assembleOne_cooc _ _ _ _ hj hi]
    unfold coocEntryOne
    by_cases h1 : i ≤ j <;> by_cases h2 : j ≤ i
    · have hij : i = j := le_antisymm h1 h2
      subst hij
      rfl
    · rw [if_pos h1, if_neg h2]
    · rw [if_neg h1, if_pos h2]
    · omega
  · intro i hi
    rw [assembleOne_cooc _ _ _ _ hi hi, assembleOne_margA _ _ _ hi]
    unfold coocEntryOne
    rw [if_pos (le_refl i)]
    unfold lookupOpt
    rw [hdiag _ (getD_mem_of_lt ts defaultTerm i hi)]

/-- Witness for C6 at a concrete transport and term list. -/
theorem single_list_symmetry_witness :
    (assembleOne zeroTransport wTerms).marginal_b
        = (assembleOne zeroTransport wTerms).marginal_a
      ∧ (∀ i j, i < wTerms.length → j < wTerms.length →
          (assembleOne zeroTransport wTerms).cooc i j
            = (assembleOne zeroTransport wTerms).cooc j i)
      ∧ (∀ i, i < wTerms.length →
          (assembleOne zeroTransport wTerms).cooc i i
            = (assembleOne zeroTransport wTerms).margA i) :=
  single_list_symmetry zeroTransport wTerms (fun _ _ => rfl)

/-- Modelled from the spec: IncompleteCollectionError surfaces the count
of missing entries when too many lookups failed. -/
inductive IncompleteCollectionError where
  | mk (n_missing : Nat)
  deriving DecidableEq

/-- Modelled from the spec: the number of lookups of a query sequence
that fail with TransportError. -/
def countFailed (transport : String → Except TransportError Nat)
    (qs : List String) : Nat :=
  (qs.filter (fun q => match transport q with | .ok _ => false | .error _ => true)).length

/-- Modelled from the spec: a single-list collect runs the sweep; if the
fraction of failed lookups exceeds the threshold it fails with
IncompleteCollectionError reporting the number of missing entries, and
otherwise it returns the matrix with each failed entry flagged missing. -/
def collectOne (transport : String → Except TransportError Nat) (threshold : ℚ)
    (ts : List Term) : Except IncompleteCollectionError CountsMatrix :=
  if (countFailed transport (collectQueriesOne ts) : ℚ)
      > threshold * (collectQueriesOne ts).length then
    .error (.mk (countFailed transport (collectQueriesOne ts)))
  else
    .ok (assembleOne transport ts)

/-- Query of the single lookup serving position (i, j) in single-list
mode. -/
def pairQueryAt (ts : List Term) (i j : Nat) : String :=
  if i ≤ j then pairQuery (ts.getD i defaultTerm) (ts.getD j defaultTerm)
  else pairQuery (ts.getD j defaultTerm) (ts.getD i defaultTerm)

/-- The single-list entry is the optional result of its serving lookup. -/
theorem coocEntryOne_eq_lookupOpt (transport : String → Except TransportError Nat)
    (ts : List Term) (i j : Nat) :
    coocEntryOne transport ts i j = lookupOpt transport (pairQueryAt ts i j) := by
  unfold coocEntryOne pairQueryAt
  split <;> rfl

/-- Modelled from the spec: the two-list branch of collect, with the same
failure-threshold policy applied to the two-list query sequence. -/
def collectTwo (transport : String → Except TransportError Nat) (threshold : ℚ)
    (la lb : List Term) : Except IncompleteCollectionError CountsMatrix :=
  if (countFailed transport (collectQueriesTwo la lb) : ℚ)
      > threshold * (collectQueriesTwo la lb).length then
    .error (.mk (countFailed transport (collectQueriesTwo la lb)))
  else
    .ok (assembleTwo transport la lb)

/-- Modelled from the spec: collect(term_set_a, term_set_b_or_none)
dispatches on the presence of the second term list. -/
def collect (transport : String → Except TransportError Nat) (threshold : ℚ)
    (term_set_a : List Term) :
    Option (List Term) → Except IncompleteCollectionError CountsMatrix
  | none => collectOne transport threshold term_set_a
  | some lb => collectTwo transport threshold term_set_a lb

/-- C7: in either mode, when the fraction of failed lookups exceeds the
threshold, collect fails with IncompleteCollectionError reporting the
count of missing entries; otherwise it returns the matrix where each
successful lookup fills its entry and each failed lookup leaves its
entry flagged missing rather than silently recorded as 0. -/
theorem failure_threshold_spec (transport : String → Except TransportError Nat)
    (threshold : ℚ) (ts la lb : List Term) :
    ((countFailed transport (collectQueriesOne ts) : ℚ)
        > threshold * (collectQueriesOne ts).length →
      collect transport threshold ts none
        = .error (.mk (countFailed transport (collectQueriesOne ts))))
    ∧ (¬ (countFailed transport (collectQueriesOne ts) : ℚ)
        > threshold * (collectQueriesOne ts).length →
      ∃ m, collect transport threshold ts none = .ok m
        ∧ (∀ i j, i < ts.length → j < ts.length →
            ((∃ v, m.cooc i j = some v ∧ transport (pairQueryAt ts i j) = .ok v)
              ∨ (m.cooc i j = none ∧ transport (pairQueryAt ts i j) = .error .fail)))
        ∧ (∀ i, i < ts.length →
            ((∃ v, m.margA i = some v
                ∧ transport (clause (ts.getD i defaultTerm)) = .ok v)
              ∨ (m.margA i = none
                ∧ transport (clause (ts.getD i defaultTerm)) = .error .fail))))
    ∧ ((countFailed transport (collectQueriesTwo la lb) : ℚ)
        > threshold * (collectQueriesTwo la lb).length →
      collect transport threshold la (some lb)
        = .error (.mk (countFailed transport (collectQueriesTwo la lb))))
    ∧ (¬ (countFailed transport (collectQueriesTwo la lb) : ℚ)
        > threshold * (collectQueriesTwo la lb).length →
      ∃ m, collect transport threshold la (some lb) = .ok m
        ∧ (∀ i j, i < la.length → j < lb.length →
            ((∃ v, m.cooc i j = some v
                ∧ transport (pairQuery (la.getD i defaultTerm) (lb.getD j defaultTerm))
                    = .ok v)
              ∨ (m.cooc i j = none
                ∧ transport (pairQuery (la.getD i defaultTerm) (lb.getD j defaultTerm))
                    = .error .fail)))
        ∧ (∀ i, i < la.length →
            ((∃ v, m.margA i = some v
                ∧ transport (clause (la.getD i defaultTerm)) = .ok v)
              ∨ (m.margA i = none
                ∧ transport (clause (la.getD i defaultTerm)) = .error .fail)))
        ∧ (∀ j, j < lb.length →
            ((∃ v, m.margB j = some v
                ∧ transport (clause (lb.getD j defaultTerm)) = .ok v)
              ∨ (m.margB j = none
                ∧ transport (clause (lb.getD j defaultTerm)) = .error .fail)))) := by
  refine ⟨?_, ?_, ?_, ?_⟩
  · intro h
    show collectOne transport threshold ts = _
    unfold collectOne
    rw [if_pos h]
  · intro h
    refine ⟨assembleOne transport ts, ?_, ?_, ?_⟩
    · show collectOne transport threshold ts = _
      unfold collectOne
      rw [if_neg h]
    · intro i j hi hj
      rw [assembleOne_cooc _ _ _ _ hi hj, coocEntryOne_eq_lookupOpt]
      cases hq : transport (pairQueryAt ts i j) with
      | ok v =>
        exact Or.inl ⟨v, by rw [lookupOpt_eq_some]; exact hq, rfl⟩
      | error e =>
        cases e
        exact Or.inr ⟨by rw [lookupOpt_eq_none]; exact hq, rfl⟩
    · intro i hi
      rw [assembleOne_margA _ _ _ hi]
      cases hq : transport (clause (ts.getD i defaultTerm)) with
      | ok v =>
        exact Or.inl ⟨v, by rw [lookupOpt_eq_some]; exact hq, rfl⟩
      | error e =>
        cases e
        exact Or.inr ⟨by rw [lookupOpt_eq_none]; exact hq, rfl⟩
  · intro h
    show collectTwo transport threshold la lb = _
    unfold collectTwo
    rw [if_pos h]
  · intro h
    refine ⟨assembleTwo transport la lb, ?_, ?_, ?_, ?_⟩
    · show collectTwo transport threshold la lb = _
      unfold collectTwo
      rw [if_neg h]
    · intro i j hi hj
      rw [assembleTwo_cooc _ _ _ _ _ hi hj]
      cases hq : transport (pairQuery (la.getD i defaultTerm) (lb.getD j defaultTerm)) with
      | ok v =>
        exact Or.inl ⟨v, by rw [lookupOpt_eq_some]; exact hq, rfl⟩
      | error e =>
        cases e
        exact Or.inr ⟨by rw [lookupOpt_eq_none]; exact hq, rfl⟩
    · intro i hi
      rw [assembleTwo_margA _ _ _ _ hi]
      cases hq : transport (clause (la.getD i defaultTerm)) with
      | ok v =>
        exact Or.inl ⟨v, by rw [lookupOpt_eq_some]; exact hq, rfl⟩
      | error e =>
        cases e
        exact Or.inr ⟨by rw [lookupOpt_eq_none]; exact hq, rfl⟩
    · intro j hj
      rw [assembleTwo_margB _ _ _ _ hj]
      cases hq : transport (clause (lb.getD j defaultTerm)) with
      | ok v =>
        exact Or.inl ⟨v, by rw [lookupOpt_eq_some]; exact hq, rfl⟩
      | error e =>
        cases e
        exact Or.inr ⟨by rw [lookupOpt_eq_none]; exact hq, rfl⟩

/-- Constant transport whose every lookup fails. -/
def failTransport : String → Except TransportError Nat := fun _ => .error .fail

/-- Witness for C7: with every lookup of a 1-term single-list sweep and
of a 1-by-1 two-list sweep failing at threshold 1/10, both collect modes
fail, reporting the failed-lookup count. -/
theorem failure_threshold_spec_witness :
    collect failTransport (1 / 10) [wTermA] none
        = .error (.mk (countFailed failTransport (collectQueriesOne [wTermA])))
      ∧ collect failTransport (1 / 10) [wTermA] (some [wTermB])
        = .error (.mk (countFailed failTransport (collectQueriesTwo [wTermA] [wTermB]))) :=
  ⟨(failure_threshold_spec failTransport (1 / 10) [wTermA] [wTermA] [wTermB]).1 (by
      have h1 : countFailed failTransport (collectQueriesOne [wTermA]) = 2 := by decide
      have h2 : (collectQueriesOne [wTermA]).length = 2 := by decide
      rw [h1, h2]
      norm_num),
   (failure_threshold_spec failTransport (1 / 10) [wTermA] [wTermA] [wTermB]).2.2.1 (by
      have h1 : countFailed failTransport (collectQueriesTwo [wTermA] [wTermB]) = 3 := by decide
      have h2 : (collectQueriesTwo [wTermA] [wTermB]).length = 3 := by decide
      rw [h1, h2]
      norm_num)⟩

/-- Modelled from the spec: the errors the score engine can raise. The
spec defines zero-marginal and zero-denominator cases to yield a score of
0, so DivisionError exists in the taxonomy but is never raised. -/
inductive ScoreError where
  | incompleteData
  | divisionError
  deriving DecidableEq

/-- Modelled from the spec: the available score kinds. -/
inductive ScoreKind where
  | normalizeA
  | normalizeB
  | association
  deriving DecidableEq

/-- Modelled from the spec: a matrix is complete when no marginal and no
co-occurrence entry is missing. -/
def complete (m : CountsMatrix) : Bool :=
  m.marginal_a.all Option.isSome && m.marginal_b.all Option.isSome
    && m.cooccurrence.all (fun row => row.all Option.isSome)

/-- Numeric value of a filled entry. -/
def getN (o : Option Nat) : Nat := o.getD 0

/-- Modelled from the spec: the normalization formula, defined as 0 when
the marginal is 0 instead of raising DivisionError. -/
def normFormula (c m : ℚ) : ℚ := if m = 0 then 0 else c / m

/-- Modelled from the spec: the Jaccard-style association formula,
defined as 0 when the denominator is 0. -/
def assocFormula (c a b : ℚ) : ℚ := if a + b - c = 0 then 0 else c / (a + b - c)

/-- Modelled from the spec: compute_score checks for missing entries and
then applies the selected formula entrywise; it never divides by zero and
never raises a division error. -/
def compute_score (m : CountsMatrix) (kind : ScoreKind) :
    Except ScoreError (List (List ℚ)) :=
  if complete m then
    .ok ((List.range m.cooccurrence.length).map (fun i =>
      (List.range ((m.cooccurrence.getD i []).length)).map (fun j =>
        match kind with
        | .normalizeA => normFormula (getN (m.cooc i j)) (getN (m.margA i))
        | .normalizeB => normFormula (getN (m.cooc i j)) (getN (m.margB j))
        | .association =>
            assocFormula (getN (m.cooc i j)) (getN (m.margA i)) (getN (m.margB j)))))
  else .error .incompleteData

/-- Reads one score entry; out-of-range positions read as 0. -/
def scoreEntry (s : List (List ℚ)) (i j : Nat) : ℚ := (s.getD i []).getD j 0

/-- On a complete matrix compute_score succeeds and each in-range entry
is the selected formula applied to that position's counts. -/
theorem compute_score_ok_entry (m : CountsMatrix) (kind : ScoreKind)
    (hcomp : complete m = true) (i j : Nat)
    (hi : i < m.cooccurrence.length) (hj : j < (m.cooccurrence.getD i []).length) :
    ∃ s, compute_score m kind = .ok s
      ∧ scoreEntry s i j = (match kind with
          | .normalizeA => normFormula (getN (m.cooc i j)) (getN (m.margA i))
          | .normalizeB => normFormula (getN (m.cooc i j)) (getN (m.margB j))
          | .association =>
              assocFormula (getN (m.cooc i j)) (getN (m.margA i)) (getN (m.margB j))) := by
  refine ⟨_, by unfold compute_score; rw [if_pos hcomp], ?_⟩
  unfold scoreEntry
  rw [getD_range_map _ _ _ i hi, getD_range_map _ _ _ j hj]
  cases kind <;> rfl

/-- C3: on a complete matrix satisfying the CountsMatrix invariant, the
association score at each position equals
cooccurrence / (marginal_a + marginal_b - cooccurrence), lies in [0, 1],
and is 0 whenever the denominator is 0. -/
theorem association_score_spec (m : CountsMatrix) (i j : Nat) (c a b : Nat)
    (hcomp : complete m = true)
    (hi : i < m.cooccurrence.length) (hj : j < (m.cooccurrence.getD i []).length)
    (hc : m.cooc i j = some c) (ha : m.margA i = some a) (hb : m.margB j = some b)
    (hinv : c ≤ min a b) :
    ∃ s, compute_score m .association = .ok s
      ∧ scoreEntry s i j = (c : ℚ) / ((a : ℚ) + (b : ℚ) - (c : ℚ))
      ∧ 0 ≤ scoreEntry s i j ∧ scoreEntry s i j ≤ 1
      ∧ (((a : ℚ) + (b : ℚ) - (c : ℚ)) = 0 → scoreEntry s i j = 0) := by
  obtain ⟨s, hok, hent⟩ := compute_score_ok_entry m .association hcomp i j hi hj
  rw [hc, ha, hb] at hent
  simp only [getN, Option.getD_some] at hent
  have hca : (c : ℚ) ≤ (a : ℚ) := by
    exact_mod_cast le_trans hinv (min_le_left a b)
  have hcb : (c : ℚ) ≤ (b : ℚ) := by
    exact_mod_cast le_trans hinv (min_le_right a b)
  have hc0 : (0 : ℚ) ≤ (c : ℚ) := by positivity
  have hb0 : (0 : ℚ) ≤ (b : ℚ) := by positivity
  have hd0 : (0 : ℚ) ≤ (a : ℚ) + (b : ℚ) - (c : ℚ) := by linarith
  refine ⟨s, hok, ?_, ?_, ?_, ?_⟩
  · rw [hent]
    unfold assocFormula
    split
    · rename_i hz
      rw [hz, div_zero]
    · rfl
  · rw [hent]
    unfold assocFormula
    split
    · exact le_refl 0
    · exact div_nonneg hc0 hd0
  · rw [hent]
    unfold assocFormula
    split
    · norm_num
    · rename_i hz
      have hpos : (0 : ℚ) < (a : ℚ) + (b : ℚ) - (c : ℚ) := lt_of_le_of_ne hd0 (Ne.symm hz)
      rw [div_le_one hpos]
      linarith
  · intro hz
    rw [hent]
    unfold assocFormula
    rw [if_pos hz]

/-- Concrete complete matrix used in concrete checks. -/
def wMat : CountsMatrix := ⟨[[some 1]], [some 2], [some 3]⟩

/-- Witness for C3 at a concrete matrix. -/
theorem association_score_spec_witness :
    ∃ s, compute_score wMat .association = .ok s
      ∧ scoreEntry s 0 0 = ((1 : Nat) : ℚ) / (((2 : Nat) : ℚ) + ((3 : Nat) : ℚ) - ((1 : Nat) : ℚ))
      ∧ 0 ≤ scoreEntry s 0 0 ∧ scoreEntry s 0 0 ≤ 1
      ∧ ((((2 : Nat) : ℚ) + ((3 : Nat) : ℚ) - ((1 : Nat) : ℚ)) = 0 → scoreEntry s 0 0 = 0) :=
  association_score_spec wMat 0 0 1 2 3 rfl (by decide) (by decide) rfl rfl rfl (by decide)

/-- C4: compute_score never raises a division error, and on a complete
matrix whose A marginal at row i is 0, the normalize-by-A score of every
entry of row i is 0 with no error raised. -/
theorem normalize_zero_marginal_no_error :
    (∀ (m : CountsMatrix) (kind : ScoreKind),
        compute_score m kind ≠ .error .divisionError)
      ∧ ∀ (m : CountsMatrix) (i : Nat), complete m = true → m.margA i = some 0 →
          ∃ s, compute_score m .normalizeA = .ok s ∧ ∀ j, scoreEntry s i j = 0 := by
  constructor
  · intro m kind
    unfold compute_score
    split <;> simp
  · intro m i hcomp hzero
    refine ⟨(List.range m.cooccurrence.length).map (fun i2 =>
      (List.range ((m.cooccurrence.getD i2 []).length)).map (fun j =>
        normFormula (getN (m.cooc i2 j)) (getN (m.margA i2)))), ?_, ?_⟩
    · unfold compute_score
      rw [if_pos hcomp]
    · intro j
      unfold scoreEntry
      by_cases hi : i < m.cooccurrence.length
      · rw [getD_range_map _ _ _ i hi]
        by_cases hj : j < (m.cooccurrence.getD i []).length
        · rw [getD_range_map _ _ _ j hj, hzero]
          simp [getN, normFormula]
        · exact getD_ge _ _ _ (by simpa using le_of_not_lt hj)
      · have houter : ((List.range m.cooccurrence.length).map (fun i2 =>
            (List.range ((m.cooccurrence.getD i2 []).length)).map (fun j =>
              normFormula (getN (m.cooc i2 j)) (getN (m.margA i2))))).getD i [] = [] :=
          getD_ge _ _ _ (by simpa using le_of_not_lt hi)
        rw [houter]
        simp

/-- Concrete complete matrix with a zero marginal, used in concrete
checks. -/
def wMat0 : CountsMatrix := ⟨[[some 0]], [some 0], [some 0]⟩

/-- Witness for C4 at a concrete matrix and kind. -/
theorem normalize_zero_marginal_no_error_witness :
    compute_score wMat0 ScoreKind.normalizeA ≠ .error .divisionError
      ∧ ∃ s, compute_score wMat0 .normalizeA = .ok s ∧ ∀ j, scoreEntry s 0 j = 0 :=
  ⟨normalize_zero_marginal_no_error.1 wMat0 ScoreKind.normalizeA,
   normalize_zero_marginal_no_error.2 wMat0 0 rfl rfl⟩

/-- Modelled from the spec: the kinds of list updates on a TermSet. -/
inductive TermKind where
  | terms
  | inclusions
  | exclusions
  deriving DecidableEq

/-- Modelled from the spec: a TermSet stores the terms list and the
positionally matched inclusion and exclusion lists (the Base object is
absent from src; only tutorial callers are present). -/
structure TermSet where
  terms : List (List String)
  inclusions : List (List String)
  exclusions : List (List String)
  deriving DecidableEq

/-- Modelled from the spec and the tutorial call sites: labels are
derived - the label of each term is the first entry of its synonym
list. -/
def TermSet.labels (s : TermSet) : List String :=
  s.terms.map (fun t => t.headD "")

/-- Modelled from the spec: add_terms replaces the stored list of the
given kind, validating that inclusion and exclusion lists match the
number of terms. -/
def TermSet.add_terms (s : TermSet) (lists : List (List String)) (kind : TermKind) :
    Except ConfigError TermSet :=
  match kind with
  | .terms => .ok { s with terms := lists }
  | .inclusions =>
      if lists.length = s.terms.length then .ok { s with inclusions := lists }
      else .error .mk
  | .exclusions =>
      if lists.length = s.terms.length then .ok { s with exclusions := lists }
      else .error .mk

/-- Applies one update, keeping the previous state when it is rejected. -/
def applyOp (s : TermSet) (op : TermKind × List (List String)) : TermSet :=
  match s.add_terms op.2 op.1 with
  | .ok s2 => s2
  | .error _ => s

/-- Applies a sequence of updates in order. -/
def runOps (s : TermSet) (ops : List (TermKind × List (List String))) : TermSet :=
  ops.foldl applyOp s

/-- Mapping commutes with positional reads when the default is the image
of a default. -/
theorem getD_map_all {α β : Type} (f : α → β) (d0 : α) :
    ∀ (l : List α) (i : Nat), (l.map f).getD i (f d0) = f (l.getD i d0)
  | [], i => by cases i <;> rfl
  | a :: l, 0 => rfl
  | a :: l, i + 1 => by
      simp only [List.map_cons, List.getD_cons_succ]
      exact getD_map_all f d0 l i

/-- C8: after any sequence of list-mutating TermSet operations, the label
at every position equals the first entry of the synonym list stored at
that position. -/
theorem labels_head_invariant (start : TermSet)
    (ops : List (TermKind × List (List String))) (i : Nat) :
    (runOps start ops).labels.getD i ""
      = ((runOps start ops).terms.getD i []).headD "" := by
  have h := getD_map_all (fun t : List String => t.headD "") [] (runOps start ops).terms i
  simpa [TermSet.labels] using h

/-- Modelled from the spec: the metadata returned with every scrape. -/
structure ScrapeMeta where
  n_requests : Nat
  deriving DecidableEq

/-- Modelled from the tutorial call sites: scrape_counts returns the raw
counts matrix, the percent matrix, both marginal count lists, and the
metadata in one call. -/
structure ScrapeResult where
  dat_numbers : List (List (Option Nat))
  dat_percent : List (List (Option ℚ))
  term_counts_a : List (Option Nat)
  term_counts_b : List (Option Nat)
  meta : ScrapeMeta
  deriving DecidableEq

/-- Modelled from the spec and the tutorial call sites: the percent
overlap of one entry - the co-occurrence count divided by the term's own
marginal, as a percentage; missing inputs stay missing and a zero
marginal yields 0. -/
def percentOf (c mA : Option Nat) : Option ℚ :=
  match c, mA with
  | some cv, some mv => some (if mv = 0 then 0 else (cv : ℚ) / (mv : ℚ) * 100)
  | _, _ => none

/-- Modelled from the spec and the tutorial call sites
(dat_numbers, dat_percent, term_counts_a, term_counts_b, meta_dat =
scrape_counts(terms_lst_a, terms_lst_b, ...), with terms_lst_b optional):
one call runs the sweep of the selected mode and returns the raw counts
matrix, the percent matrix, the per-list marginal counts, and the
metadata together. -/
def scrape_counts (transport : String → Except TransportError Nat)
    (terms_lst_a : List Term) : Option (List Term) → ScrapeResult
  | none =>
    { dat_numbers := (assembleOne transport terms_lst_a).cooccurrence
      dat_percent := (List.range terms_lst_a.length).map (fun i =>
        (List.range terms_lst_a.length).map (fun j =>
          percentOf ((assembleOne transport terms_lst_a).cooc i j)
            ((assembleOne transport terms_lst_a).margA i)))
      term_counts_a := (assembleOne transport terms_lst_a).marginal_a
      term_counts_b := (assembleOne transport terms_lst_a).marginal_b
      meta := ⟨(runSweep transport (collectQueriesOne terms_lst_a) ⟨[], 0⟩).1.n_requests⟩ }
  | some terms_lst_b =>
    { dat_numbers := (assembleTwo transport terms_lst_a terms_lst_b).cooccurrence
      dat_percent := (List.range terms_lst_a.length).map (fun i =>
        (List.range terms_lst_b.length).map (fun j =>
          percentOf ((assembleTwo transport terms_lst_a terms_lst_b).cooc i j)
            ((assembleTwo transport terms_lst_a terms_lst_b).margA i)))
      term_counts_a := (assembleTwo transport terms_lst_a terms_lst_b).marginal_a
      term_counts_b := (assembleTwo transport terms_lst_a terms_lst_b).marginal_b
      meta := ⟨(runSweep transport (collectQueriesTwo terms_lst_a terms_lst_b)
        ⟨[], 0⟩).1.n_requests⟩ }

/-- Reads one percent entry; out-of-range positions read as none. -/
def percEntry (r : ScrapeResult) (i j : Nat) : Option ℚ :=
  (r.dat_percent.getD i []).getD j none

/-- C10: one scrape call, in either mode, returns the normalized
percent-overlap matrix together with the raw co-occurrence counts
matrix, the per-list marginal counts, and the metadata; every percent
entry is the normalization of the returned counts entry by the returned
A marginal, so the normalized matrix is produced at collection time, not
only by a separate scoring step. -/
theorem scrape_returns_percent_with_counts
    (transport : String → Except TransportError Nat) (ts la lb : List Term) :
    ((scrape_counts transport ts none).dat_numbers
        = (assembleOne transport ts).cooccurrence
      ∧ (scrape_counts transport ts none).term_counts_a
        = (assembleOne transport ts).marginal_a
      ∧ (scrape_counts transport ts none).term_counts_b
        = (assembleOne transport ts).marginal_b
      ∧ (∀ i j, percEntry (scrape_counts transport ts none) i j
          = percentOf ((assembleOne transport ts).cooc i j)
              ((assembleOne transport ts).margA i))
      ∧ (scrape_counts transport ts none).meta.n_requests
          = ts.length + ts.length * (ts.length + 1) / 2)
    ∧ ((scrape_counts transport la (some lb)).dat_numbers
        = (assembleTwo transport la lb).cooccurrence
      ∧ (scrape_counts transport la (some lb)).term_counts_a
        = (assembleTwo transport la lb).marginal_a
      ∧ (scrape_counts transport la (some lb)).term_counts_b
        = (assembleTwo transport la lb).marginal_b
      ∧ (∀ i j, percEntry (scrape_counts transport la (some lb)) i j
          = percentOf ((assembleTwo transport la lb).cooc i j)
              ((assembleTwo transport la lb).margA i))
      ∧ (scrape_counts transport la (some lb)).meta.n_requests
          = la.length + lb.length + la.length * lb.length) := by
  constructor
  · refine ⟨rfl, rfl, rfl, ?_, ?_⟩
    · intro i j
      unfold percEntry scrape_counts
      by_cases hi : i < ts.length
      · rw [getD_range_map _ _ _ i hi]
        by_cases hj : j < ts.length
        · rw [getD_range_map _ _ _ j hj]
        · rw [getD_ge _ _ _ (by simpa using le_of_not_lt hj)]
          have hcooc : (assembleOne transport ts).cooc i j = none := by
            unfold CountsMatrix.cooc assembleOne
            rw [getD_range_map _ _ _ i hi]
            exact getD_ge _ _ _ (by simpa using le_of_not_lt hj)
          rw [hcooc]
          rfl
      · have houter :
            ((List.range ts.length).map (fun i2 => (List.range ts.length).map (fun j2 =>
              percentOf ((assembleOne transport ts).cooc i2 j2)
                ((assembleOne transport ts).margA i2)))).getD i [] = [] :=
          getD_ge _ _ _ (by simpa using le_of_not_lt hi)
        rw [houter]
        have hcooc : (assembleOne transport ts).cooc i j = none := by
          unfold CountsMatrix.cooc assembleOne
          have hrow :
              ((List.range ts.length).map (fun i2 => (List.range ts.length).map (fun j2 =>
                coocEntryOne transport ts i2 j2))).getD i [] = [] :=
            getD_ge _ _ _ (by simpa using le_of_not_lt hi)
          rw [hrow]
          cases j <;> rfl
        rw [hcooc]
        cases j <;> rfl
    · show (runSweep transport (collectQueriesOne ts) ⟨[], 0⟩).1.n_requests
        = ts.length + ts.length * (ts.length + 1) / 2
      rw [runSweep_count]
      simp only [collectQueriesOne, List.length_append, List.length_map]
      have h := upperPairs_length ts
      set m := ts.length * (ts.length + 1) with hm
      omega
  · refine ⟨rfl, rfl, rfl, ?_, ?_⟩
    · intro i j
      unfold percEntry scrape_counts
      by_cases hi : i < la.length
      · rw [getD_range_map _ _ _ i hi]
        by_cases hj : j < lb.length
        · rw [getD_range_map _ _ _ j hj]
        · rw [getD_ge _ _ _ (by simpa using le_of_not_lt hj)]
          have hcooc : (assembleTwo transport la lb).cooc i j = none := by
            unfold CountsMatrix.cooc assembleTwo
            rw [getD_map_lt la _ [] defaultTerm i hi]
            exact getD_ge _ _ _ (by simpa using le_of_not_lt hj)
          rw [hcooc]
          rfl
      · have houter :
            ((List.range la.length).map (fun i2 => (List.range lb.length).map (fun j2 =>
              percentOf ((assembleTwo transport la lb).cooc i2 j2)
                ((assembleTwo transport la lb).margA i2)))).getD i [] = [] :=
          getD_ge _ _ _ (by simpa using le_of_not_lt hi)
        rw [houter]
        have hcooc : (assembleTwo transport la lb).cooc i j = none := by
          unfold CountsMatrix.cooc assembleTwo
          have hrow :
              (la.map (fun t => lb.map (fun u =>
                lookupOpt transport (pairQuery t u)))).getD i [] = [] :=
            getD_ge _ _ _ (by simpa using le_of_not_lt hi)
          rw [hrow]
          cases j <;> rfl
        rw [hcooc]
        cases j <;> rfl
    · show (runSweep transport (collectQueriesTwo la lb) ⟨[], 0⟩).1.n_requests
        = la.length + lb.length + la.length * lb.length
      rw [runSweep_count]
      simp only [collectQueriesTwo, List.length_append, List.length_map, crossPairs_length]
      ring

end LISC
